import Mathlib

/-!
Shallow embedding of the BOLT-RAG-PIPELINE repository
(`vector_store.py`, `ocr_utils.py`, `rag_pipeline.py`) and proofs about it.

External collaborators (SHA-256, the text splitter, the embedding model, the
Chroma similarity search, the LLM) are opaque to this program: they are taken
as function parameters, exactly as the specification's §6 treats them.
-/

namespace BoltRag

/-! ### Data model: chunks and collections (`vector_store.py`, `ocr_utils.py`) -/

/-- A document chunk as stored in a Chroma collection: its text together with
the `content_hash` and `section` metadata fields that the synchronizer writes
(`split_and_prepare_documents`, `update_vectorstore`).  A chunk not produced by
this synchronizer may lack those fields, hence `Option`. -/
structure Chunk where
  content : String
  contentHash : Option String
  sectionLabel : Option String
deriving DecidableEq, Repr

/-- A Chroma collection, modelled by the list of chunks it holds, in insertion
order. -/
structure ChromaStore where
  chunks : List Chunk
deriving DecidableEq, Repr

/-- The set of `content_hash` metadata values present in a collection: the
success path of `get_existing_hashes` (`ocr_utils.py` lines 60-79) reading the
store's metadata. -/
def existingHashes (s : ChromaStore) : Finset String :=
  (s.chunks.filterMap Chunk.contentHash).toFinset

/-- An entry of the `metadatas` list returned by `chroma_store._collection.get`:
`None` or a string-keyed dictionary, modelled as an association list. -/
abbrev Metadata := List (String × String)

/-- `get_existing_hashes` (`ocr_utils.py` lines 60-79).  The argument is the
outcome of the `_collection.get(include=["metadatas"])` call: the whole lookup
is wrapped in try/except, so a failing call is caught (and logged) and the
function returns the empty set built so far. -/
def get_existing_hashes (res : Except Unit (List (Option Metadata))) : Finset String :=
  match res with
  | .error _ => ∅
  | .ok metas =>
      ((metas.filterMap id).filterMap (fun md => md.lookup "content_hash")).toFinset

/-- The `metadatas` view of a store whose chunks were written by this
synchronizer: one dictionary per chunk, holding its `content_hash` when set. -/
def storeMetadatas (s : ChromaStore) : List (Option Metadata) :=
  s.chunks.map (fun c =>
    some (match c.contentHash with
          | some h => [("content_hash", h)]
          | none => []))

/-- `split_and_prepare_documents` (`vector_store.py` lines 71-98) tags each
split chunk with its content hash and the section label: the per-chunk
preparation applied to a split text. -/
def prepareChunk (hash : String → String) (text : String) : Chunk :=
  { content := text
    contentHash := some (hash text)
    sectionLabel := some "all_sections" }

/-- `split_and_prepare_documents` (`vector_store.py` lines 71-98): the external
`RecursiveCharacterTextSplitter` is the opaque `splitter`; every produced chunk
receives `content_hash` and `section` metadata. -/
def split_and_prepare_documents {α : Type} (hash : String → String)
    (splitter : List α → List String) (docs : List α) : List Chunk :=
  (splitter docs).map (prepareChunk hash)

/-- `create_new_vector_store` (`vector_store.py` lines 100-134): loads and
splits the documents and creates the collection from all splits via
`Chroma.from_documents`, with no duplicate filtering. -/
def create_new_vector_store {α : Type} (hash : String → String)
    (splitter : List α → List String) (rawDocs : List α) : ChromaStore :=
  { chunks := split_and_prepare_documents hash splitter rawDocs }

/-- Result of one `update_vectorstore` run: the returned store, the batch of
chunks passed to `add_documents`, and whether `persist` was called. -/
structure UpdateResult where
  store : ChromaStore
  added : List Chunk
  persisted : Bool
deriving DecidableEq, Repr

/-- `update_vectorstore` (`vector_store.py` lines 136-190): read the existing
hash set, return early if no raw documents were loaded, otherwise split, tag
each chunk with its hash and section, keep the chunks whose hash is not in the
existing set, and add and persist that batch when it is non-empty. -/
def update_vectorstore {α : Type} (hash : String → String)
    (splitter : List α → List String) (store : ChromaStore)
    (rawDocs : List α) : UpdateResult :=
  let existing := existingHashes store
  if rawDocs.isEmpty then
    { store := store, added := [], persisted := false }
  else
    let splitDocs := split_and_prepare_documents hash splitter rawDocs
    let uniqueChunks := splitDocs.filter (fun c => decide (hash c.content ∉ existing))
    if uniqueChunks.isEmpty then
      { store := store, added := [], persisted := false }
    else
      { store := { chunks := store.chunks ++ uniqueChunks }
        added := uniqueChunks
        persisted := true }

/-! ### Document loading (`vector_store.py` lines 38-69, `ocr_utils.py` lines 18-36) -/

deriving instance DecidableEq for Except

/-- A document produced by loading: its text and the `source` metadata
(`extract_clean_metadata` always sets `source` to the file path; `TextLoader`
does the same). -/
structure Doc where
  content : String
  source : String
deriving DecidableEq, Repr

/-- What the external readers do with one file on disk.  The `.pdf` branch of
the loader feeds the path to `PdfReader` (which may raise, and each page's
`extract_text` may raise); the `.txt` branch feeds it to `TextLoader.load`
(which may raise).  Both potential outcomes are recorded, since the code
chooses the reader by file-name suffix alone. -/
structure FileData where
  asPdf : Except Unit (List (Except Unit String))
  asText : Except Unit String
deriving DecidableEq, Repr

/-- A directory tree: the files and subdirectories of a node, each in the
order the operating system lists them (the code imposes no sorting). -/
inductive FsTree where
  | node (files : List (String × FileData)) (dirs : List (String × FsTree))

/-- Python's `str.endswith`. -/
def endswith (s suff : String) : Bool :=
  suff.data.isSuffixOf s.data

/-- Truthiness of `text and text.strip()`: true unless the text is empty or
whitespace-only. -/
def strip_truthy (t : String) : Bool :=
  !(t.data.all Char.isWhitespace)

mutual

/-- `os.walk(docs_path)` with default top-down order: the directory's own
`(root, files)` group first, then each subdirectory's groups recursively, in
listing order.  Paths are joined with `/` as `os.path.join` does. -/
def osWalk (path : String) : FsTree → List (String × List (String × FileData))
  | .node files dirs => (path, files) :: osWalkDirs path dirs

/-- Helper for `osWalk`: walk each subdirectory in turn. -/
def osWalkDirs (path : String) : List (String × FsTree) → List (String × List (String × FileData))
  | [] => []
  | (name, t) :: rest => osWalk (path ++ "/" ++ name) t ++ osWalkDirs path rest

end

/-- The `for page_num, page in enumerate(raw_reader.pages)` loop inside the
`try` of the PDF branch (`vector_store.py` lines 57-63): pages whose extracted
text is empty or whitespace-only are skipped; a page whose extraction raises
stops the loop (the exception is caught by the surrounding handler), keeping
the documents appended before it. -/
def pdfPageDocs (path : String) : List (Except Unit String) → List Doc
  | [] => []
  | .error _ :: _ => []
  | .ok t :: rest =>
      (if strip_truthy t then [{ content := t, source := path }] else []) ++
        pdfPageDocs path rest

/-- The whole `try`/`except` PDF branch (`vector_store.py` lines 52-65): a
failing `PdfReader` call contributes nothing; otherwise the page loop runs.
Either way the exception handler only logs, so this never propagates an
error. -/
def pdfFileDocs (path : String) (reader : Except Unit (List (Except Unit String))) : List Doc :=
  match reader with
  | .error _ => []
  | .ok pages => pdfPageDocs path pages

/-- Processing of a single directory entry by the loader's inner loop
(`vector_store.py` lines 50-68): the branch is chosen by file-name suffix; the
PDF branch is wrapped in `try`/`except`, the `.txt` branch
(`TextLoader(file_path).load()`) is not, so its failure propagates.  Files
matching neither suffix are ignored. -/
def processFile (root : String) (name : String) (fd : FileData) : Except Unit (List Doc) :=
  let path := root ++ "/" ++ name
  if endswith name ".pdf" then
    .ok (pdfFileDocs path fd.asPdf)
  else if endswith name ".txt" then
    match fd.asText with
    | .error e => .error e
    | .ok t => .ok [{ content := t, source := path }]
  else
    .ok []

/-- The inner `for file in files` loop, threading the shared `docs`
accumulator. -/
def processGroup (root : String) : List (String × FileData) → List Doc → Except Unit (List Doc)
  | [], acc => .ok acc
  | (name, fd) :: rest, acc =>
      match processFile root name fd with
      | .error e => .error e
      | .ok ds => processGroup root rest (acc ++ ds)

/-- The outer `for root, _, files in os.walk(docs_path)` loop. -/
def loadWalkGroups : List (String × List (String × FileData)) → List Doc → Except Unit (List Doc)
  | [], acc => .ok acc
  | (root, files) :: rest, acc =>
      match processGroup root files acc with
      | .error e => .error e
      | .ok acc' => loadWalkGroups rest acc'

/-- `load_documents_from_directory` (`vector_store.py` lines 38-69). -/
def load_documents_from_directory (path : String) (t : FsTree) : Except Unit (List Doc) :=
  loadWalkGroups (osWalk path t) []

/-- The files visited by the loader, with their roots, in `os.walk` order. -/
def walkFiles (path : String) (t : FsTree) : List (String × String × FileData) :=
  (osWalk path t).flatMap (fun g => g.2.map (fun f => (g.1, f.1, f.2)))

/-- Straight-line per-file semantics: each file contributes its documents in
sequence; a propagating (plain-text) failure aborts the rest. -/
def processFilesSeq : List (String × String × FileData) → Except Unit (List Doc)
  | [] => .ok []
  | (root, name, fd) :: rest =>
      match processFile root name fd with
      | .error e => .error e
      | .ok ds =>
          match processFilesSeq rest with
          | .error e => .error e
          | .ok ds' => .ok (ds ++ ds')

/-- `extract_text_from_pdf_ocr` (`ocr_utils.py` lines 18-36): render the PDF
pages to images and OCR each one, concatenating the text; any failure is
caught and yields the empty string.  The argument is the outcome of
`convert_from_path` plus per-image OCR, each image modelled by its OCR text. -/
def extract_text_from_pdf_ocr (conv : Except Unit (List String)) : String :=
  match conv with
  | .error _ => ""
  | .ok texts => String.join texts

/-! ### `sanitize_collection_name` (`ocr_utils.py` lines 8-12) -/

/-- The character class kept by the regular expression
`re.sub(r'[^a-zA-Z0-9_\-]', '', name)`: ASCII letters, digits, underscore,
hyphen. -/
def allowedChar (c : Char) : Bool :=
  c.isAlpha || c.isDigit || c = '_' || c = '-'

/-- `sanitize_collection_name` (`ocr_utils.py` lines 8-12): replace each space
with an underscore, delete every character outside the allowed class, keep the
first 63 characters. -/
def sanitize_collection_name (s : String) : String :=
  ⟨(((s.data.map (fun c => if c = ' ' then '_' else c)).filter allowedChar).take 63)⟩

/-! ### `unified_search` (`vector_store.py` lines 245-309) -/

/-- A search hit: a document paired with its similarity score (lower is
better); scores are modelled as rationals. -/
abbrev Scored (α : Type) := α × ℚ

/-- The key comparison behind `all_results.sort(key=lambda x: x[1])`. -/
def scoreLE {α : Type} (a b : Scored α) : Prop := a.2 ≤ b.2

instance {α : Type} : DecidableRel (α := Scored α) scoreLE :=
  fun a b => inferInstanceAs (Decidable (a.2 ≤ b.2))

instance {α : Type} : IsTotal (Scored α) scoreLE :=
  ⟨fun a b => le_total a.2 b.2⟩

instance {α : Type} : IsTrans (Scored α) scoreLE :=
  ⟨fun _ _ _ => le_trans⟩

/-- `all_results.sort(key=lambda x: x[1])`: Python's `list.sort` is a stable
ascending sort; stable sorts are extensionally unique, so the (stable)
insertion sort embeds it. -/
def sortByScore {α : Type} (l : List (Scored α)) : List (Scored α) :=
  List.insertionSort scoreLE l

/-- One iteration of the `for collection in collection_names` loop: issue the
similarity query — with `filter=None` — and extend the accumulated results,
or leave them unchanged when the query raises (`continue`). -/
def searchStep {γ α : Type}
    (searchFn : γ → String → ℕ → Option String → Except Unit (List (Scored α)))
    (query : String) (k : ℕ) (acc : List (Scored α)) (c : γ) : List (Scored α) :=
  match searchFn c query k none with
  | .error _ => acc
  | .ok results => acc ++ results

/-- `unified_search` (`vector_store.py` lines 245-309): query every collection
in enumeration order — note each query is issued with `filter=None`, the
`filter_section` parameter is never read — skipping collections whose query
raises, concatenate the per-collection result lists, sort ascending by score,
take the first `k`, and drop the scores.  Collection names and the external
`similarity_search_with_score` are opaque parameters. -/
def unified_search {γ α : Type} (collectionNames : List γ)
    (searchFn : γ → String → ℕ → Option String → Except Unit (List (Scored α)))
    (query : String) (k : ℕ) (filter_section : String) : List α :=
  let allResults := collectionNames.foldl (searchStep searchFn query k) []
  ((sortByScore allResults).take k).map Prod.fst

/-! ### The RAG pipeline (`rag_pipeline.py` lines 23-98) -/

/-- The `Search` TypedDict (`rag_pipeline.py` lines 23-26): a structured query
with a search string and a section label. -/
structure Search where
  query : String
  sectionLabel : String
deriving DecidableEq, Repr

/-- The `State` TypedDict (`rag_pipeline.py` lines 28-33).  Fields other than
the question are absent until the corresponding stage writes them. -/
structure PipelineState where
  question : String
  query : Option Search
  context : Option (List Doc)
  answer : Option String
deriving DecidableEq, Repr

/-- The `analyze_query` node: ask the structured-output LLM (opaque) for a
`Search` and store it. -/
def analyze_query (structuredLLM : String → Search) (s : PipelineState) : PipelineState :=
  { s with query := some (structuredLLM s.question) }

/-- The `retrieve` node: call `unified_search` with the structured query's
search string, `k=4`, and the query's section label, and store the result.
(The code would fail on a state with no query; within the compiled graph the
query is always present, so the `none` branch is unreachable.) -/
def retrieve {γ : Type} (collectionNames : List γ)
    (searchFn : γ → String → ℕ → Option String → Except Unit (List (Scored Doc)))
    (s : PipelineState) : PipelineState :=
  match s.query with
  | none => s
  | some q =>
      let docs := unified_search collectionNames searchFn q.query 4 q.sectionLabel
      { s with context := some docs }

/-- The `generate` node: join the context chunk texts with blank lines, invoke
the LLM (opaque) on prompt and question, store its answer.  (As with
`retrieve`, the `none` branch is unreachable within the compiled graph.) -/
def generate (llm : String → String → String) (s : PipelineState) : PipelineState :=
  match s.context with
  | none => s
  | some ctx =>
      let ans := llm s.question (String.intercalate "\n\n" (ctx.map Doc.content))
      { s with answer := some ans }

/-- A langgraph `StateGraph` after `compile()`: named nodes and directed
edges. -/
structure StateGraph (σ : Type) where
  nodes : List (String × (σ → σ))
  edges : List (String × String)

/-- The name langgraph gives the `START` vertex. -/
def START : String := "__start__"

/-- The unique outgoing edge of a vertex, if any. -/
def nextNode {σ : Type} (g : StateGraph σ) (cur : String) : Option String :=
  (g.edges.find? (fun e => e.1 == cur)).map Prod.snd

/-- Look up a node's function by name. -/
def nodeFn {σ : Type} (g : StateGraph σ) (name : String) : Option (σ → σ) :=
  (g.nodes.find? (fun p => p.1 == name)).map Prod.snd

/-- Execution of a compiled graph: starting from a vertex, repeatedly follow
the outgoing edge and apply the target node's function, recording the trace of
executed nodes; stop at a vertex with no outgoing edge.  Fuel bounds the run
so the function is total on arbitrary graphs. -/
def runFrom {σ : Type} (g : StateGraph σ) : ℕ → String → σ → List String × σ
  | 0, _, s => ([], s)
  | fuel + 1, cur, s =>
      match nextNode g cur with
      | none => ([], s)
      | some n =>
          match nodeFn g n with
          | none => ([], s)
          | some f =>
              let r := runFrom g fuel n (f s)
              (n :: r.1, r.2)

/-- `graph.invoke(...)`: run from `START`. -/
def invokeGraph {σ : Type} (g : StateGraph σ) (fuel : ℕ) (s : σ) : List String × σ :=
  runFrom g fuel START s

/-- `setup_rag_pipeline` (`rag_pipeline.py` lines 35-98): three nodes,
`START → analyze_query → retrieve → generate`. -/
def setup_rag_pipeline {γ : Type} (structuredLLM : String → Search)
    (collectionNames : List γ)
    (searchFn : γ → String → ℕ → Option String → Except Unit (List (Scored Doc)))
    (llm : String → String → String) : StateGraph PipelineState :=
  { nodes := [("analyze_query", analyze_query structuredLLM),
              ("retrieve", retrieve collectionNames searchFn),
              ("generate", generate llm)]
    edges := [(START, "analyze_query"),
              ("analyze_query", "retrieve"),
              ("retrieve", "generate")] }

/-! ### `ask_question` (`rag_pipeline.py` lines 100-125) -/

/-- The message object returned by `ChatMistralAI.invoke` (an `AIMessage`):
carries its text content. -/
structure LlmMessage where
  content : String
deriving DecidableEq, Repr

/-- A Python value returned by `ask_question`: a `str`, or the message object
returned by `llm.invoke` (the success branch returns it without taking
`.content`, despite the function's `-> str` annotation). -/
inductive AskAnswer where
  | str (s : String)
  | message (m : LlmMessage)
deriving DecidableEq, Repr

/-- Whether an `ask_question` return value is actually a Python `str`. -/
def AskAnswer.isStr : AskAnswer → Bool
  | .str _ => true
  | .message _ => false

/-- `ask_question` (`rag_pipeline.py` lines 100-125): if `MISTRAL_API_KEY` is
unset (or empty — `os.environ.get` then yields a falsy value), return the
fixed instructional message; otherwise build the LLM and invoke it on the
templated question inside `try`/`except`, returning its result, or the
descriptive error string if anything raised.  The environment variable and
the LLM call are opaque parameters; the pipeline and retriever never
appear. -/
def ask_question (mistralApiKey : Option String)
    (llmInvoke : String → Except String LlmMessage) (question : String) : AskAnswer :=
  if mistralApiKey.getD "" = "" then
    .str "Please set your MISTRAL_API_KEY in the settings panel to enable question answering."
  else
    match llmInvoke ("Answer this question as if you had documents about it: " ++ question) with
    | .ok m => .message m
    | .error e => .str ("Error processing question: " ++ e)

/-! ### Rational score literals for the specification's merge example -/

/-- The score 0.1 (= 1/10). -/
def q01 : ℚ := ⟨1, 10, by norm_num, by norm_num⟩

/-- The score 0.5 (= 5/10). -/
def q05 : ℚ := ⟨1, 2, by norm_num, by norm_num⟩

/-- The score 0.2 (= 2/10). -/
def q02 : ℚ := ⟨1, 5, by norm_num, by norm_num⟩

/-- The score 0.3 (= 3/10). -/
def q03 : ℚ := ⟨3, 10, by norm_num, by norm_num⟩

/-! ### Helper lemmas -/

lemma foldl_searchStep_ok {α : Type} (rss : List (List (Scored α)))
    (q : String) (k : ℕ) (acc : List (Scored α)) :
    rss.foldl (searchStep (fun c _ _ _ => Except.ok c) q k) acc = acc ++ rss.flatten := by
  induction rss generalizing acc with
  | nil => simp
  | cons x xs ih => simp [searchStep, ih]

lemma unified_search_ok_eq {α : Type} (rss : List (List (Scored α)))
    (q : String) (k : ℕ) (fs : String) :
    unified_search rss (fun c _ _ _ => Except.ok c) q k fs
      = ((sortByScore rss.flatten).take k).map Prod.fst := by
  unfold unified_search
  rw [foldl_searchStep_ok]
  simp

/-- Stability of the score sort, in filter form: selecting the hits with any
one fixed score yields the same subsequence before and after sorting, i.e.
equal scores keep their original encounter order. -/
lemma sortByScore_filter_eq {α : Type} (l : List (Scored α)) (c : ℚ) :
    (sortByScore l).filter (fun x => decide (x.2 = c))
      = l.filter (fun x => decide (x.2 = c)) := by
  have hsub : List.Sublist (l.filter (fun x => decide (x.2 = c))) l :=
    List.filter_sublist l
  have hpw : (l.filter (fun x => decide (x.2 = c))).Pairwise scoreLE := by
    apply List.pairwise_of_forall_mem_list
    intro a ha b hb
    have ha' := List.of_mem_filter ha
    have hb' := List.of_mem_filter hb
    simp only [decide_eq_true_eq] at ha' hb'
    simp [scoreLE, ha', hb']
  have h2 : List.Sublist (l.filter (fun x => decide (x.2 = c))) (sortByScore l) :=
    List.sublist_insertionSort hpw hsub
  have h3 : List.Perm ((sortByScore l).filter (fun x => decide (x.2 = c)))
      (l.filter (fun x => decide (x.2 = c))) :=
    (List.perm_insertionSort scoreLE l).filter _
  have h4 := h2.filter (fun x => decide (x.2 = c))
  rw [List.filter_filter] at h4
  have h5 : List.Sublist (l.filter (fun x => decide (x.2 = c)))
      ((sortByScore l).filter (fun x => decide (x.2 = c))) := by
    simpa [Bool.and_self] using h4
  exact (h5.eq_of_length h3.length_eq.symm).symm

lemma existingHashes_append (c1 c2 : List Chunk) :
    existingHashes ⟨c1 ++ c2⟩ = existingHashes ⟨c1⟩ ∪ existingHashes ⟨c2⟩ := by
  simp [existingHashes]

lemma mem_existingHashes {s : ChromaStore} {h : String} :
    h ∈ existingHashes s ↔ ∃ c ∈ s.chunks, c.contentHash = some h := by
  simp [existingHashes]

/-- A run all of whose chunk fingerprints are already present adds nothing,
persists nothing, and returns the store unchanged. -/
lemma update_vectorstore_all_existing {α : Type} (hash : String → String)
    (splitter : List α → List String) (s : ChromaStore) (raw : List α)
    (hall : ∀ t ∈ splitter raw, hash t ∈ existingHashes s) :
    update_vectorstore hash splitter s raw = ⟨s, [], false⟩ := by
  rw [update_vectorstore]
  by_cases hr : raw.isEmpty
  · simp [hr]
  · have hnil : (split_and_prepare_documents hash splitter raw).filter
        (fun c => decide (hash c.content ∉ existingHashes s)) = [] := by
      rw [List.filter_eq_nil_iff]
      intro c hc
      rw [split_and_prepare_documents, List.mem_map] at hc
      obtain ⟨t, ht, rfl⟩ := hc
      simp [prepareChunk, hall t ht]
    simp [hr, hnil]
    intro c hc
    rw [split_and_prepare_documents, List.mem_map] at hc
    obtain ⟨t, ht, rfl⟩ := hc
    simpa [prepareChunk] using hall t ht

/-- After a run on a non-empty raw-document list, every chunk fingerprint of
the split is present in the returned store's hash set. -/
lemma update_vectorstore_covers {α : Type} (hash : String → String)
    (splitter : List α → List String) (s : ChromaStore) (raw : List α)
    (hn : raw ≠ []) :
    ∀ t ∈ splitter raw,
      hash t ∈ existingHashes (update_vectorstore hash splitter s raw).store := by
  intro t ht
  have hr : raw.isEmpty = false := by
    cases raw with
    | nil => exact absurd rfl hn
    | cons a l => rfl
  rw [update_vectorstore]
  simp only [hr, Bool.false_eq_true, if_false]
  by_cases hmem : hash t ∈ existingHashes s
  · split
    · exact hmem
    · rw [existingHashes_append]
      exact Finset.mem_union_left _ hmem
  · have hcmem : prepareChunk hash t ∈ (split_and_prepare_documents hash splitter raw).filter
        (fun c => decide (hash c.content ∉ existingHashes s)) := by
      refine List.mem_filter.mpr ⟨?_, ?_⟩
      · exact List.mem_map_of_mem _ ht
      · simp [prepareChunk, hmem]
    have hne : ((split_and_prepare_documents hash splitter raw).filter
        (fun c => decide (hash c.content ∉ existingHashes s))).isEmpty = false := by
      rw [List.isEmpty_eq_false]
      exact List.ne_nil_of_mem hcmem
    simp only [hne, Bool.false_eq_true, if_false]
    rw [existingHashes_append]
    refine Finset.mem_union_right _ (mem_existingHashes.mpr ⟨prepareChunk hash t, hcmem, rfl⟩)

/-! ### Claim theorems -/

/-- C8: for every input string, `sanitize_collection_name` returns a string of
length at most 63 containing only ASCII letters, digits, underscore and
hyphen; spaces are converted to underscores before the other disallowed
characters are removed, as witnessed by `"My Docs! 2024" ↦ "My_Docs_2024"`
(removal-first would instead give `"MyDocs2024"`). -/
theorem sanitize_collection_name_spec :
    (∀ s : String,
      (sanitize_collection_name s).length ≤ 63
      ∧ (sanitize_collection_name s).data.all allowedChar = true)
    ∧ sanitize_collection_name "My Docs! 2024" = "My_Docs_2024" := by
  constructor
  · intro s
    constructor
    · show (((s.data.map _).filter _).take 63).length ≤ 63
      simpa using List.length_take_le 63 _
    · rw [List.all_eq_true]
      intro c hc
      exact List.of_mem_filter (List.mem_of_mem_take hc)
  · decide

/-- C2: `unified_search` concatenates the per-collection result lists in
collection-enumeration order, sorts the concatenation ascending by score with
a stable sort (equal scores keep their encounter order), truncates to the
first `k`, and drops the scores; with fewer than `k` merged entries it returns
all of them.  The specification's example — collections with score lists
[0.1, 0.5] and [0.2, 0.3], `k = 3` — yields the chunks scored 0.1, 0.2, 0.3 in
that order. -/
theorem unified_search_merge_spec :
    (∀ (α : Type) (rss : List (List (Scored α))) (q : String) (k : ℕ) (fs : String),
      unified_search rss (fun c _ _ _ => Except.ok c) q k fs
          = ((sortByScore rss.flatten).take k).map Prod.fst
      ∧ (sortByScore rss.flatten).Pairwise scoreLE
      ∧ List.Perm (sortByScore rss.flatten) rss.flatten
      ∧ (∀ c : ℚ, (sortByScore rss.flatten).filter (fun x => decide (x.2 = c))
          = rss.flatten.filter (fun x => decide (x.2 = c)))
      ∧ (unified_search rss (fun c _ _ _ => Except.ok c) q k fs).length
          = min k rss.flatten.length
      ∧ (rss.flatten.length ≤ k →
          unified_search rss (fun c _ _ _ => Except.ok c) q k fs
            = (sortByScore rss.flatten).map Prod.fst))
    ∧ unified_search [[("d1", q01), ("d2", q05)], [("d3", q02), ("d4", q03)]]
        (fun c _ _ _ => Except.ok c) "query" 3 "all_sections" = ["d1", "d3", "d4"]
    ∧ q01 = 1/10 ∧ q05 = 5/10 ∧ q02 = 2/10 ∧ q03 = 3/10 := by
  refine ⟨fun α rss q k fs => ⟨unified_search_ok_eq rss q k fs, ?_, ?_, ?_, ?_, ?_⟩,
    by decide, ?_, ?_, ?_, ?_⟩
  · exact List.sorted_insertionSort scoreLE rss.flatten
  · exact List.perm_insertionSort scoreLE rss.flatten
  · exact fun c => sortByScore_filter_eq rss.flatten c
  · rw [unified_search_ok_eq]
    simp [sortByScore]
  · intro hk
    rw [unified_search_ok_eq, List.take_of_length_le]
    simpa [sortByScore] using hk
  · rw [q01, Rat.mk'_eq_divInt]; norm_num [Rat.divInt_eq_div]
  · rw [q05, Rat.mk'_eq_divInt]; norm_num [Rat.divInt_eq_div]
  · rw [q02, Rat.mk'_eq_divInt]; norm_num [Rat.divInt_eq_div]
  · rw [q03, Rat.mk'_eq_divInt]; norm_num [Rat.divInt_eq_div]

/-- Witness for C2: the under-full branch at a concrete input — one
collection with a single hit and `k = 5` returns that one hit. -/
theorem unified_search_merge_spec_witness :
    unified_search [[("a", q01)]] (fun c _ _ _ => Except.ok c) "query" 5 "s"
      = (sortByScore ([[("a", q01)]] : List (List (Scored String))).flatten).map Prod.fst :=
  (unified_search_merge_spec.1 String [[("a", q01)]] "query" 5 "s").2.2.2.2.2 (by decide)

/-- C9: the `filter_section` argument of `unified_search` has no effect on the
result — every per-collection query is issued with `filter=None`, so runs
differing only in `filter_section` coincide, and the result depends on the
external search function only through its behaviour at `filter=None`. -/
theorem unified_search_filter_section_independent :
    ∀ (γ α : Type) (cols : List γ)
      (searchFn searchFn' : γ → String → ℕ → Option String → Except Unit (List (Scored α)))
      (q : String) (k : ℕ) (fs fs' : String),
      unified_search cols searchFn q k fs = unified_search cols searchFn q k fs'
      ∧ ((∀ c, searchFn c q k none = searchFn' c q k none) →
          unified_search cols searchFn q k fs = unified_search cols searchFn' q k fs') := by
  intro γ α cols searchFn searchFn' q k fs fs'
  refine ⟨rfl, fun h => ?_⟩
  unfold unified_search
  rw [List.foldl_ext (searchStep searchFn q k) (searchStep searchFn' q k) []
    (fun a b _ => by rw [searchStep, searchStep, h b])]

/-- Witness for C9: two searches over the same two result lists that differ
only in `filter_section` (and use pointwise-agreeing search functions) return
the same documents. -/
theorem unified_search_filter_section_independent_witness :
    unified_search [[("a", q01)], [("b", q02)]] (fun c _ _ _ => Except.ok c) "query" 2 "all_sections"
      = unified_search [[("a", q01)], [("b", q02)]] (fun c _ _ _ => Except.ok c) "query" 2 "other" :=
  (unified_search_filter_section_independent (List (Scored String)) String
    [[("a", q01)], [("b", q02)]] (fun c _ _ _ => Except.ok c) (fun c _ _ _ => Except.ok c)
    "query" 2 "all_sections" "other").2 (fun _ => rfl)

/-- C1: synchronization is idempotent for an unchanged source and collection —
after one `update_vectorstore` run, every chunk fingerprint of the (same)
split is already in the returned store's existing-hash set, and a second run
marks zero chunks for insertion, performs no add and no persist, and returns
the store with the same chunk set. -/
theorem update_vectorstore_idempotent :
    ∀ (α : Type) (hash : String → String) (splitter : List α → List String)
      (s : ChromaStore) (raw : List α),
      (raw ≠ [] → ∀ t ∈ splitter raw,
          hash t ∈ existingHashes (update_vectorstore hash splitter s raw).store)
      ∧ update_vectorstore hash splitter (update_vectorstore hash splitter s raw).store raw
          = ⟨(update_vectorstore hash splitter s raw).store, [], false⟩ := by
  intro α hash splitter s raw
  refine ⟨fun hn => update_vectorstore_covers hash splitter s raw hn, ?_⟩
  by_cases hn : raw = []
  · subst hn
    rw [update_vectorstore]
    simp
  · exact update_vectorstore_all_existing hash splitter _ raw
      (update_vectorstore_covers hash splitter s raw hn)

/-- Witness for C1 at a concrete input: one document `"a"`, identity hash and
splitter, empty initial store. -/
theorem update_vectorstore_idempotent_witness :
    id "a" ∈ existingHashes (update_vectorstore id id ⟨[]⟩ ["a"]).store
    ∧ update_vectorstore id id (update_vectorstore id id ⟨[]⟩ ["a"]).store ["a"]
        = ⟨(update_vectorstore id id ⟨[]⟩ ["a"]).store, [], false⟩ :=
  ⟨(update_vectorstore_idempotent String id id ⟨[]⟩ ["a"]).1 (by decide) "a" (by decide),
   (update_vectorstore_idempotent String id id ⟨[]⟩ ["a"]).2⟩

/-- C4 counterexample: fingerprint uniqueness within a collection is **not**
an invariant of synchronization.  Creating a collection from a source whose
split yields two chunks with identical text (here via the identity hash and
splitter, mirroring two identical documents — SHA-256 likewise maps equal
text to equal fingerprints) produces a collection holding two chunks with the
same fingerprint: `create_new_vector_store` performs no duplicate check at
all. -/
theorem create_new_vector_store_duplicate_fingerprints :
    ((create_new_vector_store id id ["dup", "dup"]).chunks.filterMap Chunk.contentHash)
        = ["dup", "dup"]
    ∧ ¬ ((create_new_vector_store id id ["dup", "dup"]).chunks.filterMap
          Chunk.contentHash).Nodup := by
  refine ⟨by decide, by decide⟩

/-- C4 amended: what the pre-insert check actually guarantees — the store
returned by `update_vectorstore` is the input store extended by exactly the
added batch, and every added chunk carries a fingerprint that was **not**
already present in the collection before the run.  Uniqueness of fingerprints
within the added batch itself (and within a freshly created collection) is
not guaranteed. -/
theorem update_vectorstore_added_not_preexisting :
    ∀ (α : Type) (hash : String → String) (splitter : List α → List String)
      (s : ChromaStore) (raw : List α),
      (update_vectorstore hash splitter s raw).store.chunks
          = s.chunks ++ (update_vectorstore hash splitter s raw).added
      ∧ ∀ c ∈ (update_vectorstore hash splitter s raw).added,
          c.contentHash = some (hash c.content) ∧ hash c.content ∉ existingHashes s := by
  intro α hash splitter s raw
  rw [update_vectorstore]
  by_cases hr : raw.isEmpty
  · simp [hr]
  · simp only [hr, Bool.false_eq_true, if_false]
    split
    · simp
    · refine ⟨rfl, ?_⟩
      intro c hc
      have hpred := List.of_mem_filter hc
      have hmem := List.mem_of_mem_filter hc
      rw [split_and_prepare_documents, List.mem_map] at hmem
      obtain ⟨t, _, rfl⟩ := hmem
      simp only [decide_eq_true_eq] at hpred
      exact ⟨rfl, hpred⟩

/-- Witness for C4's amended theorem at a concrete input. -/
theorem update_vectorstore_added_not_preexisting_witness :
    (update_vectorstore id id ⟨[]⟩ ["a"]).store.chunks
        = ([] : List Chunk) ++ (update_vectorstore id id ⟨[]⟩ ["a"]).added
    ∧ (⟨"a", some "a", some "all_sections"⟩ : Chunk).contentHash = some (id "a")
    ∧ id "a" ∉ existingHashes ⟨[]⟩ :=
  ⟨(update_vectorstore_added_not_preexisting String id id ⟨[]⟩ ["a"]).1,
   ((update_vectorstore_added_not_preexisting String id id ⟨[]⟩ ["a"]).2
      ⟨"a", some "a", some "all_sections"⟩ (by decide)).1,
   ((update_vectorstore_added_not_preexisting String id id ⟨[]⟩ ["a"]).2
      ⟨"a", some "a", some "all_sections"⟩ (by decide)).2⟩

/-- C7: a failing store lookup makes `get_existing_hashes` return the empty
set instead of raising; on the success path it returns exactly the stored
fingerprints; and synchronization against an empty existing set marks every
split chunk for insertion (duplicates accepted rather than failing
ingestion). -/
theorem get_existing_hashes_failure_policy :
    (∀ e : Unit, get_existing_hashes (Except.error e) = ∅)
    ∧ (∀ s : ChromaStore, get_existing_hashes (Except.ok (storeMetadatas s)) = existingHashes s)
    ∧ (∀ (α : Type) (hash : String → String) (splitter : List α → List String)
        (s : ChromaStore) (raw : List α), existingHashes s = ∅ →
        (update_vectorstore hash splitter s raw).added
          = if raw.isEmpty then [] else split_and_prepare_documents hash splitter raw) := by
  refine ⟨fun e => rfl, fun s => ?_, fun α hash splitter s raw hempty => ?_⟩
  · rw [get_existing_hashes, storeMetadatas, existingHashes]
    congr 1
    simp only [List.filterMap_map, List.filterMap_filterMap, Function.comp, id,
      Option.some_bind]
    induction s.chunks with
    | nil => rfl
    | cons c cs ih =>
        cases hc : c.contentHash <;> simp [List.filterMap_cons, hc, List.lookup, ih]
  · rw [update_vectorstore]
    by_cases hr : raw.isEmpty
    · simp [hr]
    · have hfull : (split_and_prepare_documents hash splitter raw).filter
          (fun c => decide (hash c.content ∉ existingHashes s))
            = split_and_prepare_documents hash splitter raw := by
        apply List.filter_eq_self.mpr
        intro c _
        simp [hempty]
      simp only [hr, Bool.false_eq_true, if_false, hfull]
      split
      · rename_i hsplit
        rw [List.isEmpty_iff] at hsplit
        simp [hr, hsplit]
      · simp [hr]

/-- Witness for C7's empty-set branch at a concrete input. -/
theorem get_existing_hashes_failure_policy_witness :
    (update_vectorstore id id ⟨[]⟩ ["a"]).added
      = if (["a"] : List String).isEmpty then []
        else split_and_prepare_documents id id ["a"] :=
  get_existing_hashes_failure_policy.2.2 String id id ⟨[]⟩ ["a"] (by decide)

lemma processFilesSeq_append (fs1 fs2 : List (String × String × FileData)) :
    processFilesSeq (fs1 ++ fs2)
      = match processFilesSeq fs1 with
        | .error e => .error e
        | .ok ds =>
            match processFilesSeq fs2 with
            | .error e => .error e
            | .ok ds' => .ok (ds ++ ds') := by
  induction fs1 with
  | nil =>
      dsimp only [processFilesSeq, List.nil_append]
      cases processFilesSeq fs2 <;> simp
  | cons f fs ih =>
      obtain ⟨root, name, fd⟩ := f
      dsimp only [processFilesSeq, List.cons_append]
      cases processFile root name fd with
      | error e => rfl
      | ok ds =>
          dsimp only
          rw [ih]
          cases processFilesSeq fs <;> cases processFilesSeq fs2 <;>
            simp [List.append_assoc]

lemma processGroup_eq (root : String) (files : List (String × FileData)) (acc : List Doc) :
    processGroup root files acc
      = (processFilesSeq (files.map (fun f => (root, f.1, f.2)))).map
          (fun ds => acc ++ ds) := by
  induction files generalizing acc with
  | nil => simp [processGroup, processFilesSeq, Except.map]
  | cons f fs ih =>
      obtain ⟨name, fd⟩ := f
      dsimp only [processGroup, processFilesSeq, List.map_cons]
      cases processFile root name fd with
      | error e => rfl
      | ok ds =>
          dsimp only
          rw [ih]
          cases processFilesSeq (fs.map (fun f => (root, f.1, f.2))) <;>
            simp [Except.map, List.append_assoc]

lemma loadWalkGroups_eq (gs : List (String × List (String × FileData))) (acc : List Doc) :
    loadWalkGroups gs acc
      = (processFilesSeq (gs.flatMap (fun g => g.2.map (fun f => (g.1, f.1, f.2))))).map
          (fun ds => acc ++ ds) := by
  induction gs generalizing acc with
  | nil => simp [loadWalkGroups, processFilesSeq, Except.map]
  | cons g gs ih =>
      obtain ⟨root, files⟩ := g
      dsimp only [loadWalkGroups]
      rw [List.flatMap_cons, processGroup_eq, processFilesSeq_append]
      cases processFilesSeq (files.map (fun f => (root, f.1, f.2))) with
      | error e => simp [Except.map]
      | ok ds =>
          dsimp only [Except.map]
          rw [ih]
          cases processFilesSeq (gs.flatMap (fun g => g.2.map (fun f => (g.1, f.1, f.2)))) <;>
            simp [Except.map, List.append_assoc]

/-- Files whose names match neither `.pdf` nor `.txt` contribute nothing. -/
lemma processFilesSeq_filter (fs : List (String × String × FileData)) :
    processFilesSeq (fs.filter (fun f => endswith f.2.1 ".pdf" || endswith f.2.1 ".txt"))
      = processFilesSeq fs := by
  induction fs with
  | nil => rfl
  | cons f fs ih =>
      obtain ⟨root, name, fd⟩ := f
      by_cases hp : (endswith name ".pdf" || endswith name ".txt") = true
      · rw [List.filter_cons, if_pos hp]
        simp only [processFilesSeq]
        rw [ih]
      · rw [List.filter_cons, if_neg hp]
        have hfile : processFile root name fd = .ok [] := by
          rw [Bool.or_eq_true] at hp
          push_neg at hp
          simp only [Bool.not_eq_true] at hp
          simp [processFile, hp.1, hp.2]
        simp only [processFilesSeq, hfile]
        rw [ih]
        cases processFilesSeq fs <;> simp

/-- A directory with no files of its own whose single subdirectory holds a
text file. -/
def tSubdirOnly : FsTree :=
  .node [] [("sub", .node [("a.txt", ⟨.error (), .ok "hello"⟩)] [])]

/-- A directory with no entries at all. -/
def tEmptyDir : FsTree := .node [] []

/-- C3 counterexample: document loading is **not** restricted to the
directory's immediate contents.  Two directories with identical (empty)
immediate file lists produce different document lists, because `os.walk`
descends into the subdirectory and loads `sub/a.txt`. -/
theorem load_documents_recursive_counterexample :
    load_documents_from_directory "root" tSubdirOnly
        = Except.ok [{ content := "hello", source := "root/sub/a.txt" }]
    ∧ load_documents_from_directory "root" tEmptyDir = Except.ok []
    ∧ (Except.ok [({ content := "hello", source := "root/sub/a.txt" } : Doc)]
        : Except Unit (List Doc)) ≠ Except.ok [] := by
  refine ⟨by decide, by decide, by decide⟩

/-- C3 amended: loading considers every file under the source directory
**recursively**, in `os.walk` order (top-down, listing order — not lexically
sorted); only files whose names end in `.pdf` or `.txt` contribute; the
result is a deterministic function of the whole directory tree. -/
theorem load_documents_walk_characterization :
    ∀ (path : String) (t : FsTree),
      load_documents_from_directory path t = processFilesSeq (walkFiles path t)
      ∧ processFilesSeq (walkFiles path t)
          = processFilesSeq ((walkFiles path t).filter
              (fun f => endswith f.2.1 ".pdf" || endswith f.2.1 ".txt")) := by
  intro path t
  refine ⟨?_, (processFilesSeq_filter (walkFiles path t)).symm⟩
  rw [load_documents_from_directory, loadWalkGroups_eq, walkFiles]
  cases processFilesSeq ((osWalk path t).flatMap (fun g => g.2.map (fun f => (g.1, f.1, f.2)))) <;>
    simp [Except.map]

/-- A directory holding a PDF whose second page fails extraction, followed by
a loadable text file. -/
def tPartialPdf : FsTree :=
  .node [("bad.pdf", ⟨.ok [.ok "hello", .error ()], .ok "x"⟩),
         ("good.txt", ⟨.error (), .ok "world"⟩)] []

/-- C6 counterexample: a file whose extraction fails does **not** contribute
empty text.  `bad.pdf`'s page loop raises at its second page, yet the
document of its first page — appended before the exception — remains, so the
failing file contributes one document (and loading then continues with
`good.txt`). -/
theorem load_documents_caught_page_error_counterexample :
    pdfPageDocs "d/bad.pdf" [.ok "hello", .error ()]
        = [{ content := "hello", source := "d/bad.pdf" }]
    ∧ load_documents_from_directory "d" tPartialPdf
        = Except.ok [{ content := "hello", source := "d/bad.pdf" },
                     { content := "world", source := "d/good.txt" }]
    ∧ ([{ content := "hello", source := "d/bad.pdf" }] : List Doc) ≠ [] := by
  refine ⟨by decide, by decide, by decide⟩

/-- C6 amended: OCR failures yield the empty string; PDF extraction failures
are caught — the file contributes the documents of the pages processed before
the failure (possibly none), and loading continues with the remaining files —
while a plain-text loader failure is not caught and aborts loading. -/
theorem load_documents_failure_policy :
    extract_text_from_pdf_ocr (Except.error ()) = ""
    ∧ (∀ (root name : String) (fd : FileData)
          (rest : List (String × String × FileData)),
          endswith name ".pdf" = true →
          processFilesSeq ((root, name, fd) :: rest)
            = (processFilesSeq rest).map
                (fun ds => pdfFileDocs (root ++ "/" ++ name) fd.asPdf ++ ds))
    ∧ (∀ (path : String) (okPages : List String) (rest : List (Except Unit String)),
          pdfPageDocs path (okPages.map Except.ok ++ Except.error () :: rest)
            = pdfPageDocs path (okPages.map Except.ok))
    ∧ (∀ (root name : String) (fd : FileData)
          (rest : List (String × String × FileData)),
          endswith name ".pdf" = false → endswith name ".txt" = true →
          fd.asText = Except.error () →
          processFilesSeq ((root, name, fd) :: rest) = Except.error ()) := by
  refine ⟨rfl, ?_, ?_, ?_⟩
  · intro root name fd rest hpdf
    dsimp only [processFilesSeq, processFile]
    rw [if_pos hpdf]
    cases processFilesSeq rest <;> simp [Except.map]
  · intro path okPages rest
    induction okPages with
    | nil => rfl
    | cons t ts ih => simp [pdfPageDocs, ih]
  · intro root name fd rest hpdf htxt herr
    dsimp only [processFilesSeq, processFile]
    rw [if_neg (by simp [hpdf]), if_pos htxt, herr]

/-- Witness for C6's amended theorem at concrete inputs: a mid-file PDF
failure keeps the first page and is non-fatal; a failing text file aborts. -/
theorem load_documents_failure_policy_witness :
    processFilesSeq [("d", "bad.pdf",
        ⟨Except.ok [Except.ok "hello", Except.error ()], Except.ok "x"⟩)]
      = (processFilesSeq []).map
          (fun ds => pdfFileDocs ("d" ++ "/" ++ "bad.pdf")
            (FileData.asPdf ⟨Except.ok [Except.ok "hello", Except.error ()], Except.ok "x"⟩) ++ ds)
    ∧ pdfPageDocs "p" (["hello"].map Except.ok ++ Except.error () :: [])
        = pdfPageDocs "p" (["hello"].map Except.ok)
    ∧ processFilesSeq [("d", "x.txt", ⟨Except.error (), Except.error ()⟩)]
        = Except.error () :=
  ⟨load_documents_failure_policy.2.1 "d" "bad.pdf"
      ⟨Except.ok [Except.ok "hello", Except.error ()], Except.ok "x"⟩ [] (by decide),
   load_documents_failure_policy.2.2.1 "p" ["hello"] [],
   load_documents_failure_policy.2.2.2 "d" "x.txt"
      ⟨Except.error (), Except.error ()⟩ [] (by decide) (by decide) rfl⟩

lemma runFrom_succ {σ : Type} (g : StateGraph σ) (m : ℕ) (cur : String) (s : σ) :
    runFrom g (m + 1) cur s
      = match nextNode g cur with
        | none => ([], s)
        | some n =>
            match nodeFn g n with
            | none => ([], s)
            | some f =>
                let r := runFrom g m n (f s)
                (n :: r.1, r.2) := rfl

lemma runFrom_generate {γ : Type} (structuredLLM : String → Search) (cols : List γ)
    (searchFn : γ → String → ℕ → Option String → Except Unit (List (Scored Doc)))
    (llm : String → String → String) (m : ℕ) (s : PipelineState) :
    runFrom (setup_rag_pipeline structuredLLM cols searchFn llm) m "generate" s = ([], s) := by
  cases m with
  | zero => rfl
  | succ m =>
      rw [runFrom_succ]
      have h : nextNode (setup_rag_pipeline structuredLLM cols searchFn llm) "generate"
          = none := rfl
      rw [h]

/-- C5: for any question, running the compiled Answer Pipeline (with any fuel
at least three) executes `analyze_query`, then `retrieve`, then `generate`,
in that order, exactly once each; the final state is the straight-line
composition of the three stage functions; the `retrieve` stage calls the
unified retriever with the structured query's search string and the fixed
`k = 4`; and the edge relation is linear — every vertex has at most one
outgoing edge (their sources are distinct) and there is no branching or
cycle. -/
theorem rag_pipeline_sequencing :
    ∀ (γ : Type) (structuredLLM : String → Search) (cols : List γ)
      (searchFn : γ → String → ℕ → Option String → Except Unit (List (Scored Doc)))
      (llm : String → String → String) (q : String) (m : ℕ),
      invokeGraph (setup_rag_pipeline structuredLLM cols searchFn llm) (m + 3)
          ⟨q, none, none, none⟩
        = (["analyze_query", "retrieve", "generate"],
            generate llm (retrieve cols searchFn
              (analyze_query structuredLLM ⟨q, none, none, none⟩)))
      ∧ (["analyze_query", "retrieve", "generate"] : List String).Nodup
      ∧ (generate llm (retrieve cols searchFn
            (analyze_query structuredLLM ⟨q, none, none, none⟩))).context
          = some (unified_search cols searchFn (structuredLLM q).query 4
              (structuredLLM q).sectionLabel)
      ∧ ((setup_rag_pipeline structuredLLM cols searchFn llm).edges.map Prod.fst).Nodup := by
  intro γ structuredLLM cols searchFn llm q m
  refine ⟨?_, by decide, rfl, ?_⟩
  · dsimp only [invokeGraph]
    rw [show m + 3 = (m + 2) + 1 from rfl, runFrom_succ]
    have h1 : nextNode (setup_rag_pipeline structuredLLM cols searchFn llm) START
        = some "analyze_query" := rfl
    have h2 : nodeFn (setup_rag_pipeline structuredLLM cols searchFn llm) "analyze_query"
        = some (analyze_query structuredLLM) := rfl
    rw [h1]
    dsimp only
    rw [h2]
    dsimp only
    rw [show m + 2 = (m + 1) + 1 from rfl, runFrom_succ]
    have h3 : nextNode (setup_rag_pipeline structuredLLM cols searchFn llm) "analyze_query"
        = some "retrieve" := rfl
    have h4 : nodeFn (setup_rag_pipeline structuredLLM cols searchFn llm) "retrieve"
        = some (retrieve cols searchFn) := rfl
    rw [h3]
    dsimp only
    rw [h4]
    dsimp only
    rw [runFrom_succ]
    have h5 : nextNode (setup_rag_pipeline structuredLLM cols searchFn llm) "retrieve"
        = some "generate" := rfl
    have h6 : nodeFn (setup_rag_pipeline structuredLLM cols searchFn llm) "generate"
        = some (generate llm) := rfl
    rw [h5]
    dsimp only
    rw [h6]
    dsimp only
    rw [runFrom_generate]
  · have he : (setup_rag_pipeline structuredLLM cols searchFn llm).edges.map Prod.fst
        = [START, "analyze_query", "retrieve"] := rfl
    rw [he]
    decide

/-- Witness for C5 (its statement carries no propositional hypothesis, but we
record the run at a concrete instantiation: fuel 3, constant stage
functions). -/
theorem rag_pipeline_sequencing_witness :
    (invokeGraph (setup_rag_pipeline (fun s => ⟨s, "all_sections"⟩) ([] : List String)
        (fun _ _ _ _ => Except.ok []) (fun _ _ => "answer")) 3
        ⟨"hi", none, none, none⟩).1
      = ["analyze_query", "retrieve", "generate"] := by
  have h := (rag_pipeline_sequencing String (fun s => ⟨s, "all_sections"⟩) []
    (fun _ _ _ _ => Except.ok []) (fun _ _ => "answer") "hi" 0).1
  rw [h]

/-- C10 (code bug): with the API key set and a successful LLM call,
`ask_question` returns the message **object** produced by `llm.invoke` — not
a string, contradicting the function's own `-> str` annotation (and the
claim).  The remaining branches do return strings: the fixed instructional
message when the key is unset or empty, and the descriptive error string when
the call raises. -/
theorem ask_question_returns_message_object :
    ask_question (some "key") (fun _ => Except.ok ⟨"The answer."⟩) "What?"
        = AskAnswer.message ⟨"The answer."⟩
    ∧ (ask_question (some "key") (fun _ => Except.ok ⟨"The answer."⟩) "What?").isStr = false
    ∧ ask_question none (fun _ => Except.ok ⟨"The answer."⟩) "What?"
        = AskAnswer.str
            "Please set your MISTRAL_API_KEY in the settings panel to enable question answering."
    ∧ ask_question (some "") (fun _ => Except.ok ⟨"The answer."⟩) "What?"
        = AskAnswer.str
            "Please set your MISTRAL_API_KEY in the settings panel to enable question answering."
    ∧ ask_question (some "key") (fun _ => Except.error "boom") "What?"
        = AskAnswer.str "Error processing question: boom" := by
  refine ⟨by decide, by decide, by decide, by decide, by decide⟩

end BoltRag
